/-
Verification of the request-routing and provider-dispatch layer of the
PT-Gen-Refactor Cloudflare worker.

The definitions below are a shallow embedding of the JavaScript source:
the cache-aside executor _withCache, the sliding-window rate limiter
isRateLimited, the malicious-input check isMaliciousRequest (including the
WHATWG URL parsing it relies on, with dot-segment normalization of the
path), the request validator validateRequest, the top-level router
handleRequest, the catch-all of handleQueryRequest, the resource-id
computation of handleUrlRequest, and the language classifier
isChineseText.  Asynchronous functions are modelled as pure state-passing
functions; JavaScript exceptions are modelled with Option/Except; machine
time is an Int parameter.
-/
import Mathlib

/-- Result of one generation (spec: MediaRecord).  `success`, `error` and
`format` mirror the JavaScript fields; the provider-specific payload is kept
opaque as an association list of string fields.  An absent JavaScript field is
`none`. -/
structure MediaRecord where
  success : Bool
  error : Option String := none
  format : Option String := none
  fields : List (String × String) := []
deriving DecidableEq, Repr

/-- Copy of a record with the `format` field removed, as built by _withCache:
`const lightweightResult = { ...freshData }; delete lightweightResult.format`. -/
def stripFormat (r : MediaRecord) : MediaRecord := { r with format := none }

/-- The R2 blob store, modelled as an association list keyed by resourceId.
A stored value `none` models an entry whose `get` or `.json()` call throws
(unreadable or non-deserializable payload): in the source that exception is
caught and treated like a miss. -/
abbrev R2Store := List (String × Option MediaRecord)

/-- Model of `env.R2_BUCKET.put(resourceId, JSON.stringify(v))`: replace the
entry for the key if present, otherwise add it. -/
def r2Put : R2Store → String → MediaRecord → R2Store
  | [], rid, v => [(rid, some v)]
  | (k, w) :: rest, rid, v =>
    if k = rid then (rid, some v) :: rest else (k, w) :: r2Put rest rid v

/-- Read phase of _withCache: if a bucket binding is configured, try
`env.R2_BUCKET.get(resourceId)`; return the deserialized payload on a hit,
and `none` on a miss, on a read error, or when no binding is configured
(all of which fall through to the generator in the source). -/
def readCache (resourceId : String) (bucket : Option R2Store) : Option MediaRecord :=
  match bucket with
  | some store =>
    match List.lookup resourceId store with
    | some (some cached) => some cached
    | some none => none
    | none => none
  | none => none

/-- Model of `_withCache(resourceId, fetchFunction, env)`.  `generate` is the
record the generator thunk would produce.  The result is the returned record,
the store binding after the call, and whether the generator thunk was invoked.
On a hit the cached record is returned and the thunk is not invoked; on a miss
the fresh record is returned, and iff it is successful and a binding exists a
copy stripped of `format` is written (the source swallows write errors; the
store contract models `put` as succeeding). -/
def withCache (resourceId : String) (generate : MediaRecord) (bucket : Option R2Store) :
    MediaRecord × Option R2Store × Bool :=
  match readCache resourceId bucket with
  | some cached => (cached, bucket, false)
  | none =>
    if generate.success then
      match bucket with
      | some store => (generate, some (r2Put store resourceId (stripFormat generate)), true)
      | none => (generate, none, true)
    else (generate, bucket, true)

/-- Constant TIME_WINDOW = 60000 ms from the source. -/
def TIME_WINDOW : Int := 60000

/-- Constant MAX_REQUESTS = 30 from the source. -/
def MAX_REQUESTS : Nat := 30

/-- Constant CLEANUP_INTERVAL = 10000 ms from the source. -/
def CLEANUP_INTERVAL : Int := 10000

/-- Mutable module state of the rate limiter: the `requestCounts` map
(association list keyed by client IP, values are the recorded request
timestamps in insertion order) and the `lastCleanup` timestamp. -/
structure RLState where
  counts : List (String × List Int)
  lastCleanup : Int
deriving DecidableEq, Repr

/-- Model of `requestCounts.set(ip, v)`: replace the entry in place if the key
is present (JavaScript Map preserves insertion order), otherwise append. -/
def setEntry : List (String × List Int) → String → List Int → List (String × List Int)
  | [], ip, v => [(ip, v)]
  | (k, w) :: rest, ip, v =>
    if k = ip then (ip, v) :: rest else (k, w) :: setEntry rest ip v

/-- The periodic sweep inside isRateLimited: for every tracked identity keep
only timestamps newer than `windowStart`, deleting identities left empty. -/
def cleanupCounts (windowStart : Int) (counts : List (String × List Int)) :
    List (String × List Int) :=
  counts.filterMap fun e =>
    let valid := e.2.filter fun timestamp => decide (windowStart < timestamp)
    if valid.isEmpty then none else some (e.1, valid)

/-- Model of `isRateLimited(clientIP)`: `now` is `Date.now()`.  Returns the
boolean (true = limited) and the updated module state. -/
def isRateLimited (clientIP : String) (now : Int) (s : RLState) : Bool × RLState :=
  let windowStart := now - TIME_WINDOW
  let s1 := if CLEANUP_INTERVAL < now - s.lastCleanup then
              RLState.mk (cleanupCounts windowStart s.counts) now
            else s
  match List.lookup clientIP s1.counts with
  | some requests =>
    let validRequests := requests.filter fun timestamp => decide (windowStart < timestamp)
    if MAX_REQUESTS ≤ validRequests.length then (true, s1)
    else (false, RLState.mk (setEntry s1.counts clientIP (validRequests ++ [now])) s1.lastCleanup)
  | none => (false, RLState.mk (setEntry s1.counts clientIP [now]) s1.lastCleanup)

/-- Run a sequence of isRateLimited calls for one client, one call per listed
time, threading the module state; returns the outcomes in order. -/
def runCalls (s : RLState) (ip : String) : List Int → List Bool × RLState
  | [] => ([], s)
  | t :: ts =>
    let r1 := isRateLimited ip t s
    let r2 := runCalls r1.2 ip ts
    (r1.1 :: r2.1, r2.2)

/-- ASCII lower-casing, the effect of the `i` regex flag on the pattern
literals used by the source (all of which are ASCII). -/
def lowerAscii (c : Char) : Char :=
  if 'A' ≤ c ∧ c ≤ 'Z' then Char.ofNat (c.toNat + 32) else c

/-- Does the second list start with the first one? -/
def startsWithCL : List Char → List Char → Bool
  | [], _ => true
  | _ :: _, [] => false
  | p :: ps, c :: cs => p == c && startsWithCL ps cs

/-- Does the second list contain the first as a contiguous run? -/
def containsCL (pat : List Char) : List Char → Bool
  | [] => startsWithCL pat []
  | c :: rest => startsWithCL pat (c :: rest) || containsCL pat rest

/-- After two dots have been read: accept further dots, succeed at a slash
(the `{2,}` repetition of the traversal pattern). -/
def consumeDotsSlash : List Char → Bool
  | '/' :: _ => true
  | '.' :: rest => consumeDotsSlash rest
  | _ => false

/-- Does the traversal pattern match starting at this position? -/
def matchDotsSlashAt : List Char → Bool
  | '.' :: '.' :: rest => consumeDotsSlash rest
  | _ => false

/-- Model of DIRECTORY_TRAVERSAL_PATTERN `(\.{2,}\/)`: two or more dots
immediately followed by a slash, anywhere in the string. -/
def testDirTraversal : List Char → Bool
  | [] => false
  | c :: rest => matchDotsSlashAt (c :: rest) || testDirTraversal rest

/-- Model of SCRIPT_PROTOCOL_PATTERN `(script|javascript|vbscript):` with the
`i` flag: the string contains one of the three alternatives, case-insensitively. -/
def testScriptProto (s : List Char) : Bool :=
  let l := s.map lowerAscii
  containsCL "script:".data l || containsCL "javascript:".data l ||
    containsCL "vbscript:".data l

/-- JavaScript regex `\s` for the characters that can occur here (ASCII
whitespace and no-break space). -/
def isJsWhitespace (c : Char) : Bool :=
  c == ' ' || c == '\t' || c == '\n' || c == '\r' || c == '\x0b' || c == '\x0c' ||
    c == '\u00A0'

/-- Drop leading whitespace (the `\s*` of the embed pattern). -/
def skipWs : List Char → List Char
  | [] => []
  | c :: rest => if isJsWhitespace c then skipWs rest else c :: rest

/-- Does the embed pattern match starting at this position (input already
lower-cased)? -/
def matchEmbedAt : List Char → Bool
  | '<' :: rest =>
    let r := skipWs rest
    startsWithCL "iframe".data r || startsWithCL "object".data r ||
      startsWithCL "embed".data r
  | _ => false

/-- Scan every position for the embed pattern. -/
def scanEmbed : List Char → Bool
  | [] => false
  | c :: rest => matchEmbedAt (c :: rest) || scanEmbed rest

/-- Model of EMBED_TAG_PATTERN `(<\s*iframe|<\s*object|<\s*embed)` with the
`i` flag. -/
def testEmbedTag (s : List Char) : Bool := scanEmbed (s.map lowerAscii)

/-- `patterns.some(p => p.test(x))` for one component string: the three
pattern tests combined (the `g` flag on the traversal pattern has no
observable effect here because the regex objects are freshly created on every
call and `some` short-circuits on the first success). -/
def anyMaliciousPattern (s : String) : Bool :=
  testDirTraversal s.data || testScriptProto s.data || testEmbedTag s.data

/-- The two URL components the source destructures from `new URL(url)`. -/
structure UrlParts where
  pathname : String
  search : String
deriving DecidableEq, Repr

/-- WHATWG single-dot path segment (".", "%2e" case-insensitively). -/
def isSingleDotSeg (s : List Char) : Bool :=
  s == ['.'] || (s.map lowerAscii) == "%2e".data

/-- WHATWG double-dot path segment ("..", ".%2e", "%2e.", "%2e%2e"
case-insensitively). -/
def isDoubleDotSeg (s : List Char) : Bool :=
  s == ['.', '.'] || (s.map lowerAscii) == ".%2e".data ||
    (s.map lowerAscii) == "%2e.".data || (s.map lowerAscii) == "%2e%2e".data

/-- WHATWG path-state processing of the slash-separated segments: a double-dot
segment pops the previous segment, a single-dot segment is dropped, and either
one leaves a trailing empty segment when it ends the path. -/
def processSegs (acc : List (List Char)) : List (List Char) → List (List Char)
  | [] => acc
  | seg :: rest =>
    if isDoubleDotSeg seg then
      if rest.isEmpty then processSegs (acc.dropLast ++ [[]]) rest
      else processSegs acc.dropLast rest
    else if isSingleDotSeg seg then
      if rest.isEmpty then processSegs (acc ++ [[]]) rest
      else processSegs acc rest
    else processSegs (acc ++ [seg]) rest

/-- Split a character list into the runs separated by the given character
(the semantics of splitting on a one-character separator). -/
def splitOnChar (sep : Char) : List Char → List (List Char)
  | [] => [[]]
  | c :: rest =>
    let r := splitOnChar sep rest
    if c == sep then [] :: r
    else
      match r with
      | [] => [[c]]
      | h :: t => (c :: h) :: t

/-- Join path segments back with slashes. -/
def joinSegs : List (List Char) → List Char
  | [] => []
  | [s] => s
  | s :: rest => s ++ '/' :: joinSegs rest

/-- Dot-segment normalization of a path that starts with a slash, as performed
by the WHATWG URL parser that `new URL` implements. -/
def normalizePath (p : List Char) : String :=
  String.mk ('/' :: joinSegs (processSegs [] (splitOnChar '/' (p.drop 1))))

/-- Split a path-and-query character list at the first question mark. -/
def splitAtQuery : List Char → List Char × Option (List Char)
  | [] => ([], none)
  | c :: rest =>
    if c == '?' then ([], some rest)
    else
      let r := splitAtQuery rest
      (c :: r.1, r.2)

/-- The `search` component: empty when there is no query or the query is
empty, otherwise the query prefixed with a question mark. -/
def mkSearch : Option (List Char) → String
  | none => ""
  | some [] => ""
  | some qs => String.mk ('?' :: qs)

/-- Split the part after the scheme into host and the remaining tail (the tail
starts at the first slash or question mark). -/
def splitHostTail : List Char → List Char × List Char
  | [] => ([], [])
  | c :: rest =>
    if c == '/' || c == '?' then ([], c :: rest)
    else
      let r := splitHostTail rest
      (c :: r.1, r.2)

/-- Pathname and search of an absolute http(s) URL, computed from the tail
that follows the host. -/
def partsOfTail (tail : List Char) : UrlParts :=
  match tail with
  | [] => ⟨"/", ""⟩
  | '?' :: q => ⟨"/", mkSearch (some q)⟩
  | t =>
    let pq := splitAtQuery t
    ⟨normalizePath pq.1, mkSearch pq.2⟩

/-- Pathname and search of a relative reference resolved against the base
`http://localhost` (whose path is "/"), as in `new URL(url, 'http://localhost')`. -/
def partsOfRelative (s : List Char) : UrlParts :=
  match s with
  | '?' :: q => ⟨"/", mkSearch (some q)⟩
  | t =>
    let pq := splitAtQuery t
    let withSlash := if startsWithCL ['/'] pq.1 then pq.1 else '/' :: pq.1
    ⟨normalizePath withSlash, mkSearch pq.2⟩

/-- Model of `new URL(url, 'http://localhost')` restricted to the two
components the source reads.  `none` models the constructor throwing (http(s)
URL with an empty host).  The fragment is stripped, the path is
dot-segment-normalized, the query is kept verbatim. -/
def parseUrl (u : String) : Option UrlParts :=
  let noFrag := u.data.takeWhile fun c => c != '#'
  if startsWithCL "http://".data noFrag then
    let hostTail := splitHostTail (noFrag.drop 7)
    if hostTail.1.isEmpty then none else some (partsOfTail hostTail.2)
  else if startsWithCL "https://".data noFrag then
    let hostTail := splitHostTail (noFrag.drop 8)
    if hostTail.1.isEmpty then none else some (partsOfTail hostTail.2)
  else
    some (partsOfRelative noFrag)

/-- Model of `isMaliciousRequest(url)`.  `none` models a null/undefined or
non-string argument (the `typeof` guard); an empty string is falsy in
JavaScript and is caught by the same `!url` guard; a parse failure is caught
and classified malicious; otherwise the three patterns are tested against the
parsed pathname and search. -/
def isMaliciousRequest (url : Option String) : Bool :=
  match url with
  | none => true
  | some u =>
    if u = "" then true
    else
      match parseUrl u with
      | none => true
      | some parts => anyMaliciousPattern parts.pathname || anyMaliciousPattern parts.search

/-- Split a pair at its first equals sign. -/
def splitAtEq : List Char → List Char × Option (List Char)
  | [] => ([], none)
  | c :: rest =>
    if c == '=' then ([], some rest)
    else
      let r := splitAtEq rest
      (c :: r.1, r.2)

/-- Helper of searchParamGet: first pair whose key (text before the first
equals sign) is the wanted name; its value is the rest of the pair (empty when
the pair has no equals sign, as for searchParams). -/
def paramFromPairs : List (List Char) → String → Option String
  | [], _ => none
  | p :: rest, name =>
    let kv := splitAtEq p
    if String.mk kv.1 = name then some (String.mk (kv.2.getD []))
    else paramFromPairs rest name

/-- Model of `url.searchParams.get(name)` over the search component (leading
question mark, ampersand-separated pairs; percent-decoding is not needed for
the plain-ASCII keys involved). -/
def searchParamGet (search name : String) : Option String :=
  let q := match search.data with
           | '?' :: rest => rest
           | l => l
  if q.isEmpty then none else paramFromPairs (splitOnChar '&' q) name

/-- Response bodies, by kind: the HTML documentation page, the JSON API
documentation, a JSON error envelope carrying its message, a JSON payload
carrying a media record, or no body (204). -/
inductive RBody where
  | docsHtml
  | apiDocJson
  | errJson (msg : String)
  | payloadJson (r : MediaRecord)
  | noContent
deriving DecidableEq, Repr

/-- An HTTP response: status code and body. -/
structure HttpResponse where
  status : Nat
  body : RBody
deriving DecidableEq, Repr

/-- The environment fields the validator consumes. -/
structure WorkerEnv where
  API_KEY : Option String := none
deriving DecidableEq, Repr

/-- An inbound request: method, raw URL, whether the X-Internal-Request header
equals "true", and the first non-null client-IP header. -/
structure WorkerRequest where
  method : String
  url : String
  internalHeader : Bool := false
  ipHeader : Option String := none
deriving DecidableEq, Repr

/-- Model of `createErrorResponse(message, status, corsHeaders)`. -/
def createErrorResponse (msg : String) (status : Nat) : HttpResponse := ⟨status, .errJson msg⟩

/-- Model of `makeJsonResponse(body_update, env)` from lib/common.js.  The
JavaScript function declares exactly two parameters and forwards to
`makeJsonRawResponse(body)` with no init override, so the status is always
200; call sites that pass a third status argument (404 in
_createNotFoundResponse, 500 in handleQueryRequest) have that argument
silently dropped by JavaScript arity rules. -/
def makeJsonResponse (body : RBody) (_env : WorkerEnv) : HttpResponse := ⟨200, body⟩

/-- Model of `handleRootRequest(env, isBrowser)`: the HTML documentation page
for a browser, the JSON API documentation otherwise (both 200). -/
def handleRootRequest (_env : WorkerEnv) (isBrowser : Bool) : HttpResponse :=
  if isBrowser then ⟨200, .docsHtml⟩ else ⟨200, .apiDocJson⟩

/-- Outcome of validateRequest: pass (with the computed client IP) or fail
with a ready response.  Both carry the rate-limiter state after the call. -/
inductive Verdict where
  | valid (clientIP : String) (rl : RLState)
  | invalid (resp : HttpResponse) (rl : RLState)
deriving DecidableEq, Repr

/-- Model of `validateRequest(request, corsHeaders, env)`: the API-key gate
(with the browser carve-out for a missing key on `GET /`), then the malicious
check, then the rate limit.  `none` models `new URL(request.url)` throwing,
which nothing in the source catches.  A present-but-empty `key` parameter is
falsy in JavaScript and takes the missing-key branch. -/
def validateRequest (req : WorkerRequest) (env : WorkerEnv) (rl : RLState) (now : Int) :
    Option Verdict :=
  let clientIP := req.ipHeader.getD "unknown"
  match parseUrl req.url with
  | none => none
  | some parts =>
    let authResponse : Option HttpResponse :=
      match env.API_KEY with
      | none => none
      | some cfgKey =>
        if req.internalHeader then none
        else
          match searchParamGet parts.search "key" with
          | none =>
            some (if parts.pathname = "/" ∧ req.method = "GET"
                  then handleRootRequest env true
                  else createErrorResponse "API key required. Access denied." 401)
          | some k =>
            if k = "" then
              some (if parts.pathname = "/" ∧ req.method = "GET"
                    then handleRootRequest env true
                    else createErrorResponse "API key required. Access denied." 401)
            else if k ≠ cfgKey then
              some (createErrorResponse "Invalid API key. Access denied." 401)
            else none
    match authResponse with
    | some resp => some (.invalid resp rl)
    | none =>
      if isMaliciousRequest (some req.url) then
        some (.invalid (createErrorResponse "Malicious request detected. Access denied." 403) rl)
      else if (isRateLimited clientIP now rl).1 then
        some (.invalid (createErrorResponse "Rate limit exceeded. Please try again later." 429)
              (isRateLimited clientIP now rl).2)
      else some (.valid clientIP (isRateLimited clientIP now rl).2)

/-- The API-key gate passes: no key configured, or an internal request, or a
non-empty `key` parameter equal to the configured secret. -/
def authPasses (req : WorkerRequest) (env : WorkerEnv) (parts : UrlParts) : Bool :=
  match env.API_KEY with
  | none => true
  | some cfgKey =>
    req.internalHeader ||
      (match searchParamGet parts.search "key" with
       | none => false
       | some k => (!(k == "")) && (k == cfgKey))

/-- Model of `_createNotFoundResponse(env)`: the JSDoc promises a 404 but the
status argument is dropped by makeJsonResponse (see there). -/
def notFoundResponse (env : WorkerEnv) : HttpResponse :=
  makeJsonResponse
    (.errJson "API endpoint not found. Please check the documentation for valid endpoints.") env

/-- Model of the catch-all in `handleQueryRequest`: the parameter is the
outcome of the try block (`.ok` a response, `.error` a thrown exception with
its detail).  The catch branch calls `makeJsonResponse({success:false, error:
"Internal Server Error. Please contact the administrator."}, env, 500)`; the
third argument 500 is not bound by makeJsonResponse. -/
def handleQueryRequest (routing : Except String HttpResponse) (env : WorkerEnv) : HttpResponse :=
  match routing with
  | .ok resp => resp
  | .error _ =>
    makeJsonResponse (.errJson "Internal Server Error. Please contact the administrator.") env

/-- Model of `handleRequest(request, env)`: OPTIONS short-circuit, validation,
then routing on pathname and method.  `routing` stands for the outcome of the
query-handling body reached on POST.  `none` models an uncaught exception
escaping (URL parse failure inside validateRequest). -/
def handleRequest (req : WorkerRequest) (env : WorkerEnv) (rl : RLState) (now : Int)
    (routing : Except String HttpResponse) : Option (HttpResponse × RLState) :=
  if req.method = "OPTIONS" then some (⟨204, .noContent⟩, rl)
  else
    match validateRequest req env rl now with
    | none => none
    | some (.invalid resp rl') => some (resp, rl')
    | some (.valid _ rl') =>
      match parseUrl req.url with
      | none => none
      | some parts =>
        if (parts.pathname = "/" ∨ parts.pathname = "/api") ∧ req.method = "POST" then
          some (handleQueryRequest routing env, rl')
        else if (parts.pathname = "/" ∨ parts.pathname = "/api") ∧ req.method = "GET" then
          some (handleRootRequest env true, rl')
        else some (notFoundResponse env, rl')

/-- The character class of `chineseRegex` exactly as the JavaScript regex
engine parses it WITHOUT the `u` flag: `\uXXXX` reads exactly four hex digits,
so the intended astral ranges decompose; for example ` 0-⩭f` becomes
the character U+2000, the range from the digit zero (U+0030) to U+2A6D, and
the letter f.  As a consequence every ASCII character from U+0030 upward,
digits and Latin letters included, is in the class. -/
def chineseCharCode (c : Char) : Bool :=
  let n := c.toNat
  (0x4e00 ≤ n && n ≤ 0x9fff) ||
    (0x3400 ≤ n && n ≤ 0x4dbf) ||
    (n == 0x2000) ||
    (0x30 ≤ n && n ≤ 0x2a6d) ||
    (c == 'f') ||
    (n == 0x2a70) ||
    (0x30 ≤ n && n ≤ 0x2b73) ||
    (n == 0x2b74) ||
    (0x30 ≤ n && n ≤ 0x2b81) ||
    (n == 0x2b82) ||
    (0x30 ≤ n && n ≤ 0x2cea) ||
    (0xf900 ≤ n && n ≤ 0xfaff)

/-- The `englishRegex` class `[a-zA-Z]`. -/
def latinChar (c : Char) : Bool :=
  ('a' ≤ c && c ≤ 'z') || ('A' ≤ c && c ≤ 'Z')

/-- Model of `isChineseText(text)` as the source executes: the falsy
`!text.trim()` guard (the trim result is empty exactly when every character is
whitespace), counts of the two classes, the under-2 special case, then the
strict comparison. -/
def isChineseText (text : String) : Bool :=
  if text.data.all isJsWhitespace then false
  else
    let chineseCount := (text.data.filter chineseCharCode).length
    let englishCount := (text.data.filter latinChar).length
    if chineseCount + englishCount < 2 then decide (0 < chineseCount)
    else decide (englishCount < chineseCount)

/-- The CJK character class the regex literal intends (the spec's
"CJK-range characters"): the seven listed Unicode ranges read as code-point
ranges. -/
def specCjkChar (c : Char) : Bool :=
  let n := c.toNat
  (0x4e00 ≤ n && n ≤ 0x9fff) ||
    (0x3400 ≤ n && n ≤ 0x4dbf) ||
    (0x20000 ≤ n && n ≤ 0x2a6df) ||
    (0x2a700 ≤ n && n ≤ 0x2b73f) ||
    (0x2b740 ≤ n && n ≤ 0x2b81f) ||
    (0x2b820 ≤ n && n ≤ 0x2ceaf) ||
    (0xf900 ≤ n && n ≤ 0xfaff)

/-- The classification the claim describes, with genuine CJK counting: true
iff the CJK count strictly exceeds the Latin count, except that when the
combined count is under 2 it is true iff at least one CJK character is
present. -/
def specIsChineseText (text : String) : Bool :=
  let cjk := (text.data.filter specCjkChar).length
  let latin := (text.data.filter latinChar).length
  if cjk + latin < 2 then decide (0 < cjk)
  else decide (latin < cjk)

/-- The requestCounts map of a single tracked client: empty when the client
has no recorded timestamps (the sweep deletes empty entries and nothing ever
stores an empty list), otherwise the one entry. -/
def mkCounts (ip : String) (l : List Int) : List (String × List Int) :=
  if l.isEmpty then [] else [(ip, l)]

/-- Per-character effect of `sid.replace(/\//g, '_')`: the global
single-character pattern replaces every slash with an underscore. -/
def replaceSlashes (s : String) : String :=
  String.mk (s.data.map fun c => if c = '/' then '_' else c)

/-- The cache key computed by handleUrlRequest:
`${provider.name}_${sid.replace(/\//g, '_')}`. -/
def resourceIdOf (providerName sid : String) : String :=
  providerName ++ "_" ++ replaceSlashes sid

/-- Looking up a key immediately after writing it through r2Put finds the
written value. -/
theorem r2Put_lookup (store : R2Store) (rid : String) (v : MediaRecord) :
    List.lookup rid (r2Put store rid v) = some (some v) := by
  induction store with
  | nil => simp [r2Put, List.lookup]
  | cons e rest ih =>
    obtain ⟨k, w⟩ := e
    by_cases h : k = rid
    · simp [r2Put, h, List.lookup]
    · simp only [r2Put, if_neg h, List.lookup]
      have : (rid == k) = false := by
        simp [beq_iff_eq]
        exact fun hh => h hh.symm
      rw [this]
      exact ih

/-- C1: cache-hit short-circuit.  If the store read for the resourceId yields
a deserializable cached payload, _withCache returns that payload and never
invokes the generator thunk; and after a first call that generated a
successful record on a miss and wrote it back, a second sequential call for
the same resourceId is a hit that performs zero additional generation calls
(its result does not depend on the second thunk and the invocation flag is
false), returning the stored payload, which is the first record minus its
format field. -/
theorem withCache_at_most_once (rid : String) (gen gen2 : MediaRecord) (store : R2Store)
    (cached : MediaRecord) :
    (List.lookup rid store = some (some cached) →
      withCache rid gen (some store) = (cached, some store, false))
    ∧ (List.lookup rid store = none → gen.success = true →
        withCache rid gen (some store)
            = (gen, some (r2Put store rid (stripFormat gen)), true)
          ∧ withCache rid gen2 (some (r2Put store rid (stripFormat gen)))
            = (stripFormat gen, some (r2Put store rid (stripFormat gen)), false)) := by
  constructor
  · intro h
    simp [withCache, readCache, h]
  · intro h hs
    constructor
    · simp [withCache, readCache, h, hs]
    · simp [withCache, readCache, r2Put_lookup]

/-- Witness for C1 at a concrete store and records: a prefilled entry is
returned without generation, and a miss followed by a successful generation
makes the next call a hit. -/
theorem withCache_at_most_once_witness :
    ((List.lookup "tmdb_movie_550"
        ([("tmdb_movie_550", some ⟨true, none, none, [("title", "Fight Club")]⟩)] : R2Store)
       = some (some ⟨true, none, none, [("title", "Fight Club")]⟩))
     ∧ withCache "tmdb_movie_550" ⟨true, none, some "fmt", []⟩
         (some [("tmdb_movie_550", some ⟨true, none, none, [("title", "Fight Club")]⟩)])
       = (⟨true, none, none, [("title", "Fight Club")]⟩,
          some [("tmdb_movie_550", some ⟨true, none, none, [("title", "Fight Club")]⟩)], false))
    ∧ (List.lookup "tmdb_movie_550" ([] : R2Store) = none
       ∧ withCache "tmdb_movie_550" ⟨true, none, some "fmt", [("title", "Fight Club")]⟩ (some [])
           = (⟨true, none, some "fmt", [("title", "Fight Club")]⟩,
              some [("tmdb_movie_550", some ⟨true, none, none, [("title", "Fight Club")]⟩)], true)
       ∧ withCache "tmdb_movie_550" ⟨false, some "other", none, []⟩
             (some [("tmdb_movie_550", some ⟨true, none, none, [("title", "Fight Club")]⟩)])
           = (⟨true, none, none, [("title", "Fight Club")]⟩,
              some [("tmdb_movie_550", some ⟨true, none, none, [("title", "Fight Club")]⟩)], false)) := by
  refine ⟨⟨by decide, ?_⟩, by decide, ?_, ?_⟩
  · exact (withCache_at_most_once "tmdb_movie_550" ⟨true, none, some "fmt", []⟩
      ⟨false, some "other", none, []⟩ _ ⟨true, none, none, [("title", "Fight Club")]⟩).1 (by decide)
  · exact ((withCache_at_most_once "tmdb_movie_550" ⟨true, none, some "fmt", [("title", "Fight Club")]⟩
      ⟨false, some "other", none, []⟩ [] ⟨true, none, none, []⟩).2 (by decide) (by decide)).1
  · exact ((withCache_at_most_once "tmdb_movie_550" ⟨true, none, some "fmt", [("title", "Fight Club")]⟩
      ⟨false, some "other", none, []⟩ [] ⟨true, none, none, []⟩).2 (by decide) (by decide)).2

/-- C2: failure non-caching.  When the read phase misses and the generator
yields a record with success = false, _withCache performs no write (the store
binding is returned unchanged), hands the failure back unmodified, and a
subsequent call for the same resourceId invokes the generator again. -/
theorem withCache_failure_not_cached (rid : String) (gen gen2 : MediaRecord)
    (bucket : Option R2Store)
    (hmiss : readCache rid bucket = none) (hfail : gen.success = false) :
    withCache rid gen bucket = (gen, bucket, true)
    ∧ (withCache rid gen2 bucket).2.2 = true := by
  constructor
  · simp [withCache, hmiss, hfail]
  · unfold withCache
    rw [hmiss]
    by_cases h2 : gen2.success <;> cases bucket <;> simp [h2]

/-- Witness for C2: a failing generation against an empty store leaves it
empty and the repeat call still invokes the generator. -/
theorem withCache_failure_not_cached_witness :
    (readCache "douban_123" (some []) = none
     ∧ (⟨false, some "timeout", none, []⟩ : MediaRecord).success = false)
    ∧ withCache "douban_123" ⟨false, some "timeout", none, []⟩ (some [])
        = (⟨false, some "timeout", none, []⟩, some [], true)
    ∧ (withCache "douban_123" ⟨false, some "timeout", none, []⟩ (some [])).2.2 = true := by
  refine ⟨⟨by decide, by decide⟩, ?_, ?_⟩
  · exact (withCache_failure_not_cached "douban_123" ⟨false, some "timeout", none, []⟩
      ⟨false, some "timeout", none, []⟩ (some []) (by decide) (by decide)).1
  · exact (withCache_failure_not_cached "douban_123" ⟨false, some "timeout", none, []⟩
      ⟨false, some "timeout", none, []⟩ (some []) (by decide) (by decide)).2

/-- C3: cache-entry format invariant.  On a miss with a successful generation
the persisted payload is a copy of the record with format removed while the
caller receives the record with all its fields; and in every case _withCache
either leaves the store untouched or writes exactly the format-stripped copy,
so every cache entry it ever writes lacks format. -/
theorem withCache_strips_format (rid : String) (gen : MediaRecord) (store : R2Store)
    (hmiss : readCache rid (some store) = none) (hsucc : gen.success = true) :
    withCache rid gen (some store)
        = (gen, some (r2Put store rid (stripFormat gen)), true)
    ∧ (stripFormat gen).format = none
    ∧ ∀ (bucket : Option R2Store) (g : MediaRecord),
        (withCache rid g bucket).2.1 = bucket
        ∨ ∃ st, bucket = some st
            ∧ (withCache rid g bucket).2.1 = some (r2Put st rid (stripFormat g))
            ∧ (stripFormat g).format = none := by
  refine ⟨by simp [withCache, hmiss, hsucc], rfl, ?_⟩
  intro bucket g
  cases hr : readCache rid bucket with
  | some cached => exact Or.inl (by simp [withCache, hr])
  | none =>
    by_cases hg : g.success
    · cases bucket with
      | none => exact Or.inl (by simp [withCache, hr, hg])
      | some st => exact Or.inr ⟨st, rfl, by simp [withCache, hr, hg], rfl⟩
    · exact Or.inl (by simp [withCache, hr, hg])

/-- Witness for C3 at a concrete record carrying a format field. -/
theorem withCache_strips_format_witness :
    (readCache "steam_400" (some []) = none
     ∧ (⟨true, none, some "[img]poster[/img]", [("name", "Portal")]⟩ : MediaRecord).success = true)
    ∧ withCache "steam_400" ⟨true, none, some "[img]poster[/img]", [("name", "Portal")]⟩ (some [])
        = (⟨true, none, some "[img]poster[/img]", [("name", "Portal")]⟩,
           some [("steam_400", some ⟨true, none, none, [("name", "Portal")]⟩)], true) := by
  refine ⟨⟨by decide, by decide⟩, ?_⟩
  exact (withCache_strips_format "steam_400"
    ⟨true, none, some "[img]poster[/img]", [("name", "Portal")]⟩ [] (by decide) (by decide)).1

/-- C7: the catch-all of handleQueryRequest turns every thrown exception into
the same generic JSON error response; the message carries no exception detail
(the response is independent of the thrown value) and nothing propagates.
The HTTP status of that response is 200, not the 500 the call site passes,
because makeJsonResponse binds no status parameter. -/
theorem handleQuery_catch_status200 (e : String) (env : WorkerEnv) :
    handleQueryRequest (Except.error e) env
      = ⟨200, RBody.errJson "Internal Server Error. Please contact the administrator."⟩
    ∧ ∀ e' : String,
        handleQueryRequest (Except.error e) env = handleQueryRequest (Except.error e') env :=
  ⟨rfl, fun _ => rfl⟩

/-- C8: resource-id determinism.  The cache key is the provider name, an
underscore, and the identifier with every slash replaced by an underscore;
for provider tmdb and identifier movie/550 it is exactly tmdb_movie_550.
Determinism across repeated calls is immediate because resourceIdOf is a pure
function of its two arguments. -/
theorem resourceId_deterministic :
    resourceIdOf "tmdb" "movie/550" = "tmdb_movie_550"
    ∧ ∀ p i : String,
        resourceIdOf p i = p ++ "_" ++ String.mk (i.data.map fun c => if c = '/' then '_' else c) := by
  exact ⟨by decide, fun p i => rfl⟩

/-- C9: the code evaluated at the failing input "0".  isChineseText "0"
returns true although "0" contains no CJK character (the claimed
classification, specIsChineseText, returns false on it): without the `u` flag
the character class counts digits and Latin letters as Chinese.  The claim's
four concrete examples nevertheless hold on the code. -/
theorem isChineseText_misparse :
    isChineseText "0" = true
    ∧ specIsChineseText "0" = false
    ∧ isChineseText "复仇者联盟" = true
    ∧ isChineseText "Avengers" = false
    ∧ isChineseText "A" = false
    ∧ isChineseText "复" = true := by decide

/-- C10: fail-closed validation.  A null/undefined/non-string argument, an
empty string, and every string whose URL parse fails are all classified
malicious. -/
theorem malicious_fail_closed :
    isMaliciousRequest none = true
    ∧ isMaliciousRequest (some "") = true
    ∧ ∀ s : String, parseUrl s = none → isMaliciousRequest (some s) = true := by
  refine ⟨rfl, by decide, fun s h => ?_⟩
  unfold isMaliciousRequest
  by_cases hs : s = ""
  · simp [hs]
  · simp [hs, h]

/-- Witness for C10: the URL "http://" (empty host) fails to parse and is
classified malicious. -/
theorem malicious_fail_closed_witness :
    parseUrl "http://" = none ∧ isMaliciousRequest (some "http://") = true :=
  ⟨by decide, malicious_fail_closed.2.2 "http://" (by decide)⟩

/-- C5 counterexample: the URL http://localhost/../../etc/passwd contains
../../etc/passwd in its path, yet isMaliciousRequest returns false — the URL
parser resolves the dot segments away before the patterns run (pathname
becomes /etc/passwd) — and validateRequest admits the request as valid
instead of rejecting it with 403. -/
theorem malicious_passwd_counterexample :
    isMaliciousRequest (some "http://localhost/../../etc/passwd") = false
    ∧ validateRequest ⟨"GET", "http://localhost/../../etc/passwd", false, none⟩ ⟨none⟩ ⟨[], 0⟩ 0
        = some (.valid "unknown" ⟨[("unknown", [0])], 0⟩) := by decide

/-- C6 counterexample: with an API key configured, a GET request to /api
without a key parameter is answered by the 401 JSON error, not by the HTML
documentation page. -/
theorem docs_api_counterexample :
    (handleRequest ⟨"GET", "http://localhost/api", false, none⟩ ⟨some "secret"⟩ ⟨[], 0⟩ 0
        (Except.error "")).map (fun pr => (pr.1.status, pr.1.body))
      = some (401, RBody.errJson "API key required. Access denied.") := by decide

/-- A timestamp list all inside the window passes the window filter whole. -/
theorem filter_window_all (w : Int) (l : List Int) (h : ∀ x ∈ l, w < x) :
    (l.filter fun timestamp => decide (w < timestamp)) = l :=
  List.filter_eq_self.mpr fun a ha => decide_eq_true (h a ha)

/-- A timestamp list entirely at or before the window start is filtered away. -/
theorem filter_window_none (w : Int) (l : List Int) (h : ∀ x ∈ l, x ≤ w) :
    (l.filter fun timestamp => decide (w < timestamp)) = [] := by
  induction l with
  | nil => rfl
  | cons a as ih =>
    have ha : ¬ w < a := not_lt.mpr (h a (List.mem_cons_self a as))
    simp only [List.filter_cons, decide_eq_true_eq, if_neg ha]
    exact ih fun x hx => h x (List.mem_cons_of_mem a hx)

/-- The sweep leaves a single-client map untouched when every recorded
timestamp is inside the window. -/
theorem cleanup_mk (ip : String) (w : Int) (l : List Int) (h : ∀ x ∈ l, w < x) :
    cleanupCounts w (mkCounts ip l) = mkCounts ip l := by
  cases l with
  | nil => rfl
  | cons a as =>
    have hmk : mkCounts ip (a :: as) = [(ip, a :: as)] := by simp [mkCounts]
    rw [hmk]
    simp only [cleanupCounts, List.filterMap_cons, List.filterMap_nil,
      filter_window_all w (a :: as) h, List.isEmpty_cons]
    rfl

/-- One isRateLimited call under the limit: with fewer than 30 in-window
timestamps recorded, the call returns false and appends the current time. -/
theorem rl_step (ip : String) (prev : List Int) (c t : Int)
    (hlen : prev.length < 30)
    (hwin : ∀ x ∈ prev, t - 60000 < x) :
    isRateLimited ip t ⟨mkCounts ip prev, c⟩
      = (false, ⟨mkCounts ip (prev ++ [t]), if 10000 < t - c then t else c⟩) := by
  have hclean := cleanup_mk ip (t - 60000) prev hwin
  unfold isRateLimited
  simp only [TIME_WINDOW, CLEANUP_INTERVAL, MAX_REQUESTS]
  by_cases hc : (10000 : Int) < t - c
  · rw [if_pos hc, if_pos hc]
    cases prev with
    | nil => simp [mkCounts, cleanupCounts, setEntry, List.lookup]
    | cons a as =>
      have hne : mkCounts ip (a :: as) = [(ip, a :: as)] := by simp [mkCounts]
      rw [hne] at hclean ⊢
      simp only [hclean, List.lookup, beq_self_eq_true, if_pos rfl]
      rw [filter_window_all _ _ hwin]
      simp only [if_neg (Nat.not_le.mpr hlen), setEntry, if_pos rfl]
      simp [mkCounts]
  · rw [if_neg hc, if_neg hc]
    cases prev with
    | nil => simp [mkCounts, setEntry, List.lookup]
    | cons a as =>
      have hne : mkCounts ip (a :: as) = [(ip, a :: as)] := by simp [mkCounts]
      rw [hne]
      simp only [List.lookup, beq_self_eq_true, if_pos rfl]
      rw [filter_window_all _ _ hwin]
      simp only [if_neg (Nat.not_le.mpr hlen), setEntry, if_pos rfl]
      simp [mkCounts]

/-- One isRateLimited call at the limit: with at least 30 in-window timestamps
recorded, the call returns true and records nothing. -/
theorem rl_limit (ip : String) (a : Int) (as : List Int) (c t : Int)
    (hlen : 30 ≤ (a :: as).length)
    (hwin : ∀ x ∈ a :: as, t - 60000 < x) :
    isRateLimited ip t ⟨[(ip, a :: as)], c⟩
      = (true, ⟨[(ip, a :: as)], if 10000 < t - c then t else c⟩) := by
  have hclean := cleanup_mk ip (t - 60000) (a :: as) hwin
  have hne : mkCounts ip (a :: as) = [(ip, a :: as)] := by simp [mkCounts]
  rw [hne] at hclean
  unfold isRateLimited
  simp only [TIME_WINDOW, CLEANUP_INTERVAL, MAX_REQUESTS]
  by_cases hc : (10000 : Int) < t - c
  · rw [if_pos hc, if_pos hc]
    simp only [hclean, List.lookup, beq_self_eq_true, if_pos rfl]
    rw [filter_window_all _ _ hwin, if_pos hlen]
  · rw [if_neg hc, if_neg hc]
    simp only [List.lookup, beq_self_eq_true, if_pos rfl]
    rw [filter_window_all _ _ hwin, if_pos hlen]

/-- One isRateLimited call after the window has passed: every recorded
timestamp is at or before the window start, so the call succeeds and the
record is replaced by the current time alone. -/
theorem rl_expired (ip : String) (a : Int) (as : List Int) (c T : Int)
    (hold : ∀ x ∈ a :: as, x ≤ T - 60000) :
    isRateLimited ip T ⟨[(ip, a :: as)], c⟩
      = (false, ⟨[(ip, [T])], if 10000 < T - c then T else c⟩) := by
  have hnone := filter_window_none (T - 60000) (a :: as) hold
  unfold isRateLimited
  simp only [TIME_WINDOW, CLEANUP_INTERVAL, MAX_REQUESTS]
  by_cases hc : (10000 : Int) < T - c
  · rw [if_pos hc, if_pos hc]
    simp only [cleanupCounts, List.filterMap]
    rw [hnone]
    simp [List.lookup, setEntry]
  · rw [if_neg hc, if_neg hc]
    simp only [List.lookup, beq_self_eq_true, if_pos rfl]
    rw [hnone]
    simp [setEntry]

/-- Splitting a call sequence. -/
theorem runCalls_append (s : RLState) (ip : String) (l1 l2 : List Int) :
    runCalls s ip (l1 ++ l2)
      = ((runCalls s ip l1).1 ++ (runCalls (runCalls s ip l1).2 ip l2).1,
         (runCalls (runCalls s ip l1).2 ip l2).2) := by
  induction l1 generalizing s with
  | nil => simp [runCalls]
  | cons t rest ih => simp [runCalls, ih]

/-- Running any under-limit call sequence from a single-client state: as long
as the total number of recorded plus new calls stays at or under 30 and every
involved time lies within one window of every other, every call returns false
and exactly the call times get appended to the record. -/
theorem runCalls_under_limit (ip : String) (ts : List Int) :
    ∀ (prev : List Int) (c : Int),
      prev.length + ts.length ≤ 30 →
      (∀ x ∈ prev ++ ts, ∀ y ∈ prev ++ ts, y - 60000 < x) →
      ∃ c', runCalls ⟨mkCounts ip prev, c⟩ ip ts
              = (List.replicate ts.length false, ⟨mkCounts ip (prev ++ ts), c'⟩) := by
  induction ts with
  | nil => exact fun prev c _ _ => ⟨c, by simp [runCalls]⟩
  | cons t rest ih =>
    intro prev c hlen hwin
    have hmemt : t ∈ prev ++ t :: rest := by simp
    have hstep := rl_step ip prev c t
      (by simp at hlen; omega)
      (fun x hx => hwin x (List.mem_append_left _ hx) t hmemt)
    have hwin' : ∀ x ∈ (prev ++ [t]) ++ rest, ∀ y ∈ (prev ++ [t]) ++ rest, y - 60000 < x := by
      intro x hx y hy
      rw [List.append_assoc, List.singleton_append] at hx hy
      exact hwin x hx y hy
    obtain ⟨c', hrec⟩ := ih (prev ++ [t]) (if 10000 < t - c then t else c)
      (by simp at hlen ⊢; omega) hwin'
    refine ⟨c', ?_⟩
    simp only [runCalls, hstep, hrec]
    rw [List.append_assoc, List.singleton_append]
    simp [List.replicate_succ]

/-- C4: rate-limiter boundary.  From an empty window, any 30 calls lying
within one TIME_WINDOW of each other and of a 31st call all return false,
each recording its timestamp; the 31st call returns true and records nothing
(the recorded list is still exactly the first 30 times); and once the clock
has advanced far enough that every recorded timestamp is older than
now - TIME_WINDOW, the next call returns false again (and records only the
new time). -/
theorem rateLimiter_boundary (ip : String) (ts : List Int) (t31 T c0 : Int)
    (h30 : ts.length = 30)
    (hwin : ∀ x ∈ ts ++ [t31], ∀ y ∈ ts ++ [t31], y - TIME_WINDOW < x)
    (hexp : ∀ x ∈ ts, x < T - TIME_WINDOW) :
    ∃ c1 c2,
      runCalls ⟨[], c0⟩ ip (ts ++ [t31])
          = (List.replicate 30 false ++ [true], ⟨[(ip, ts)], c1⟩)
      ∧ runCalls ⟨[(ip, ts)], c1⟩ ip [T] = ([false], ⟨[(ip, [T])], c2⟩) := by
  have hTW : TIME_WINDOW = 60000 := rfl
  rw [hTW] at hwin hexp
  obtain ⟨a, as, rfl⟩ : ∃ a as, ts = a :: as := by
    cases ts with
    | nil => simp at h30
    | cons a as => exact ⟨a, as, rfl⟩
  obtain ⟨c', hrun⟩ := runCalls_under_limit ip (a :: as) [] c0 (by simp [h30])
    (by
      intro x hx y hy
      exact hwin x (List.mem_append_left _ (by simpa using hx))
        y (List.mem_append_left _ (by simpa using hy)))
  have hmk0 : mkCounts ip ([] : List Int) = [] := rfl
  have hmk : mkCounts ip (a :: as) = [(ip, a :: as)] := by simp [mkCounts]
  rw [hmk0, List.nil_append, hmk] at hrun
  rw [h30] at hrun
  have hlimit := rl_limit ip a as c' t31 (le_of_eq h30.symm) (fun x hx =>
    hwin x (List.mem_append_left _ hx) t31 (List.mem_append_right _ (by simp)))
  have h1 : runCalls ⟨[], c0⟩ ip (a :: as ++ [t31])
      = (List.replicate 30 false ++ [true],
         ⟨[(ip, a :: as)], if 10000 < t31 - c' then t31 else c'⟩) := by
    rw [runCalls_append, hrun]
    simp only [runCalls, hlimit]
  have h2 : runCalls ⟨[(ip, a :: as)], if 10000 < t31 - c' then t31 else c'⟩ ip [T]
      = ([false], ⟨[(ip, [T])],
          if 10000 < T - (if 10000 < t31 - c' then t31 else c') then T
          else if 10000 < t31 - c' then t31 else c'⟩) := by
    simp only [runCalls, rl_expired ip a as _ T (fun x hx => le_of_lt (hexp x hx))]
  exact ⟨_, _, h1, h2⟩

/-- Witness for C4 at concrete times: calls at 1000..1029, a 31st call at
1030 (all within one window), then a call at 70000 after the window. -/
theorem rateLimiter_boundary_witness :
    (([1000, 1001, 1002, 1003, 1004, 1005, 1006, 1007, 1008, 1009, 1010, 1011, 1012, 1013, 1014, 1015, 1016, 1017, 1018, 1019, 1020, 1021, 1022, 1023, 1024, 1025, 1026, 1027, 1028, 1029] : List Int).length = 30
     ∧ (∀ x ∈ (([1000, 1001, 1002, 1003, 1004, 1005, 1006, 1007, 1008, 1009, 1010, 1011, 1012, 1013, 1014, 1015, 1016, 1017, 1018, 1019, 1020, 1021, 1022, 1023, 1024, 1025, 1026, 1027, 1028, 1029] : List Int) ++ [1030]), ∀ y ∈ (([1000, 1001, 1002, 1003, 1004, 1005, 1006, 1007, 1008, 1009, 1010, 1011, 1012, 1013, 1014, 1015, 1016, 1017, 1018, 1019, 1020, 1021, 1022, 1023, 1024, 1025, 1026, 1027, 1028, 1029] : List Int) ++ [1030]),
          y - TIME_WINDOW < x)
     ∧ (∀ x ∈ ([1000, 1001, 1002, 1003, 1004, 1005, 1006, 1007, 1008, 1009, 1010, 1011, 1012, 1013, 1014, 1015, 1016, 1017, 1018, 1019, 1020, 1021, 1022, 1023, 1024, 1025, 1026, 1027, 1028, 1029] : List Int), x < 70000 - TIME_WINDOW))
    ∧ ∃ c1 c2,
        runCalls ⟨[], 0⟩ "203.0.113.9" (([1000, 1001, 1002, 1003, 1004, 1005, 1006, 1007, 1008, 1009, 1010, 1011, 1012, 1013, 1014, 1015, 1016, 1017, 1018, 1019, 1020, 1021, 1022, 1023, 1024, 1025, 1026, 1027, 1028, 1029] : List Int) ++ [1030])
            = (List.replicate 30 false ++ [true], ⟨[("203.0.113.9", [1000, 1001, 1002, 1003, 1004, 1005, 1006, 1007, 1008, 1009, 1010, 1011, 1012, 1013, 1014, 1015, 1016, 1017, 1018, 1019, 1020, 1021, 1022, 1023, 1024, 1025, 1026, 1027, 1028, 1029])], c1⟩)
        ∧ runCalls ⟨[("203.0.113.9", [1000, 1001, 1002, 1003, 1004, 1005, 1006, 1007, 1008, 1009, 1010, 1011, 1012, 1013, 1014, 1015, 1016, 1017, 1018, 1019, 1020, 1021, 1022, 1023, 1024, 1025, 1026, 1027, 1028, 1029])], c1⟩ "203.0.113.9" [70000]
            = ([false], ⟨[("203.0.113.9", [70000])], c2⟩) :=
  ⟨⟨by decide, by decide, by decide⟩,
   rateLimiter_boundary "203.0.113.9" [1000, 1001, 1002, 1003, 1004, 1005, 1006, 1007, 1008, 1009, 1010, 1011, 1012, 1013, 1014, 1015, 1016, 1017, 1018, 1019, 1020, 1021, 1022, 1023, 1024, 1025, 1026, 1027, 1028, 1029] 1030 70000 0 (by decide) (by decide) (by decide)⟩

/-- A parsed URL one of whose components matches a malicious pattern is
classified malicious. -/
theorem isMalicious_of_pattern (u : String) (parts : UrlParts)
    (hparse : parseUrl u = some parts)
    (hmal : (anyMaliciousPattern parts.pathname || anyMaliciousPattern parts.search) = true) :
    isMaliciousRequest (some u) = true := by
  by_cases hu : u = ""
  · subst hu
    rfl
  · show (if u = "" then true
          else match parseUrl u with
               | none => true
               | some p => anyMaliciousPattern p.pathname || anyMaliciousPattern p.search) = true
    rw [if_neg hu, hparse]
    exact hmal

/-- When the API-key gate passes, validateRequest reduces to the malicious
check followed by the rate-limit check. -/
theorem validateRequest_after_auth (req : WorkerRequest) (env : WorkerEnv) (rl : RLState)
    (now : Int) (parts : UrlParts)
    (hparse : parseUrl req.url = some parts)
    (hauth : authPasses req env parts = true) :
    validateRequest req env rl now
      = (if isMaliciousRequest (some req.url) then
           some (.invalid (createErrorResponse "Malicious request detected. Access denied." 403) rl)
         else if (isRateLimited (req.ipHeader.getD "unknown") now rl).1 then
           some (.invalid (createErrorResponse "Rate limit exceeded. Please try again later." 429)
                 (isRateLimited (req.ipHeader.getD "unknown") now rl).2)
         else some (.valid (req.ipHeader.getD "unknown")
                 (isRateLimited (req.ipHeader.getD "unknown") now rl).2)) := by
  have hnone : (match env.API_KEY with
      | none => none
      | some cfgKey =>
        if req.internalHeader = true then none
        else
          match searchParamGet parts.search "key" with
          | none =>
            some (if parts.pathname = "/" ∧ req.method = "GET"
                  then handleRootRequest env true
                  else createErrorResponse "API key required. Access denied." 401)
          | some k =>
            if k = "" then
              some (if parts.pathname = "/" ∧ req.method = "GET"
                    then handleRootRequest env true
                    else createErrorResponse "API key required. Access denied." 401)
            else if k ≠ cfgKey then
              some (createErrorResponse "Invalid API key. Access denied." 401)
            else none) = (none : Option HttpResponse) := by
    unfold authPasses at hauth
    cases hk : env.API_KEY with
    | none => rfl
    | some cfgKey =>
      rw [hk] at hauth
      cases hint : req.internalHeader with
      | true => rfl
      | false =>
        rw [hint] at hauth
        replace hauth : (match searchParamGet parts.search "key" with
            | none => false
            | some k => (!(k == "")) && (k == cfgKey)) = true := hauth
        cases hg : searchParamGet parts.search "key" with
        | none =>
          rw [hg] at hauth
          exact Bool.noConfusion hauth
        | some k =>
          rw [hg] at hauth
          replace hauth : ((!(k == "")) && (k == cfgKey)) = true := hauth
          simp only [Bool.and_eq_true, Bool.not_eq_true', beq_eq_false_iff_ne,
            beq_iff_eq] at hauth
          show (if k = "" then
                  some (if parts.pathname = "/" ∧ req.method = "GET"
                        then handleRootRequest env true
                        else createErrorResponse "API key required. Access denied." 401)
                else if k ≠ cfgKey then
                  some (createErrorResponse "Invalid API key. Access denied." 401)
                else none) = none
          rw [if_neg hauth.1, if_neg (fun hne => hne hauth.2)]
  unfold validateRequest
  simp only [hparse]
  rw [hnone]

/-- C5 (amended): whenever the request URL parses and its parsed pathname or
query string matches the directory-traversal, script-protocol, or embedded-tag
patterns, then — provided the API-key gate passes — validateRequest rejects
the request with the 403 response, the rate-limiter state is untouched, and
handleRequest answers with that 403 without ever reaching the query/dispatch
logic (the response is the same for every routing outcome).  The raw-URL
traversal example of the original claim is refuted separately: URL parsing
normalizes the dot segments away. -/
theorem malicious_pattern_rejected (req : WorkerRequest) (env : WorkerEnv) (rl : RLState)
    (now : Int) (parts : UrlParts) (routing : Except String HttpResponse)
    (hparse : parseUrl req.url = some parts)
    (hauth : authPasses req env parts = true)
    (hmal : (anyMaliciousPattern parts.pathname || anyMaliciousPattern parts.search) = true)
    (hopt : req.method ≠ "OPTIONS") :
    validateRequest req env rl now
        = some (.invalid (createErrorResponse "Malicious request detected. Access denied." 403) rl)
    ∧ handleRequest req env rl now routing
        = some (createErrorResponse "Malicious request detected. Access denied." 403, rl) := by
  have hm := isMalicious_of_pattern req.url parts hparse hmal
  have hv := validateRequest_after_auth req env rl now parts hparse hauth
  rw [hm] at hv
  simp only [if_true] at hv
  refine ⟨hv, ?_⟩
  unfold handleRequest
  rw [if_neg hopt, hv]

/-- Witness for C5 (amended): a request whose query string carries a
directory-traversal sequence is rejected with 403 and the limiter state is
unchanged. -/
theorem malicious_pattern_rejected_witness :
    (parseUrl "http://localhost/?q=../../etc/passwd" = some ⟨"/", "?q=../../etc/passwd"⟩
     ∧ authPasses ⟨"GET", "http://localhost/?q=../../etc/passwd", false, none⟩ ⟨none⟩
         ⟨"/", "?q=../../etc/passwd"⟩ = true
     ∧ (anyMaliciousPattern "/" || anyMaliciousPattern "?q=../../etc/passwd") = true)
    ∧ handleRequest ⟨"GET", "http://localhost/?q=../../etc/passwd", false, none⟩ ⟨none⟩
        ⟨[], 0⟩ 0 (Except.error "")
        = some (createErrorResponse "Malicious request detected. Access denied." 403, ⟨[], 0⟩) :=
  ⟨⟨by decide, by decide, by decide⟩,
   (malicious_pattern_rejected ⟨"GET", "http://localhost/?q=../../etc/passwd", false, none⟩
      ⟨none⟩ ⟨[], 0⟩ 0 ⟨"/", "?q=../../etc/passwd"⟩ (Except.error "")
      (by decide) (by decide) (by decide) (by decide)).2⟩

/-- C6 (amended): for a GET request whose parsed pathname is "/" or "/api":
if the API-key gate passes and the request is neither flagged malicious nor
rate-limited, the response is the HTML documentation page; if a key is
configured and the key parameter is missing or empty, pathname "/" still gets
the documentation page (the carve-out) but pathname "/api" gets the 401
error. -/
theorem docs_pages_access (req : WorkerRequest) (env : WorkerEnv) (rl : RLState) (now : Int)
    (parts : UrlParts) (routing : Except String HttpResponse)
    (hparse : parseUrl req.url = some parts)
    (hpath : parts.pathname = "/" ∨ parts.pathname = "/api")
    (hget : req.method = "GET") :
    (authPasses req env parts = true →
      isMaliciousRequest (some req.url) = false →
      (isRateLimited (req.ipHeader.getD "unknown") now rl).1 = false →
      handleRequest req env rl now routing
        = some (⟨200, RBody.docsHtml⟩, (isRateLimited (req.ipHeader.getD "unknown") now rl).2))
    ∧ (∀ cfgKey, env.API_KEY = some cfgKey → req.internalHeader = false →
        (searchParamGet parts.search "key" = none ∨ searchParamGet parts.search "key" = some "") →
        parts.pathname = "/" →
        handleRequest req env rl now routing = some (⟨200, RBody.docsHtml⟩, rl))
    ∧ (∀ cfgKey, env.API_KEY = some cfgKey → req.internalHeader = false →
        (searchParamGet parts.search "key" = none ∨ searchParamGet parts.search "key" = some "") →
        parts.pathname = "/api" →
        handleRequest req env rl now routing
          = some (createErrorResponse "API key required. Access denied." 401, rl)) := by
  have hne : req.method ≠ "OPTIONS" := by rw [hget]; decide
  have hnp : ¬((parts.pathname = "/" ∨ parts.pathname = "/api") ∧ req.method = "POST") := by
    intro h
    have : "GET" = "POST" := hget.symm.trans h.2
    exact absurd this (by decide)
  refine ⟨?_, ?_, ?_⟩
  · intro hauth hmalF hrlF
    have hv := validateRequest_after_auth req env rl now parts hparse hauth
    rw [hmalF, hrlF] at hv
    simp only [if_false, Bool.false_eq_true] at hv
    unfold handleRequest
    rw [if_neg hne, hv, hparse]
    show (if (parts.pathname = "/" ∨ parts.pathname = "/api") ∧ req.method = "POST" then
            some (handleQueryRequest routing env,
              (isRateLimited (req.ipHeader.getD "unknown") now rl).2)
          else if (parts.pathname = "/" ∨ parts.pathname = "/api") ∧ req.method = "GET" then
            some (handleRootRequest env true,
              (isRateLimited (req.ipHeader.getD "unknown") now rl).2)
          else some (notFoundResponse env,
              (isRateLimited (req.ipHeader.getD "unknown") now rl).2))
        = some (⟨200, RBody.docsHtml⟩, (isRateLimited (req.ipHeader.getD "unknown") now rl).2)
    rw [if_neg hnp, if_pos ⟨hpath, hget⟩]
    rfl
  · intro cfgKey hk hintF hkey hroot
    have hv : validateRequest req env rl now
        = some (.invalid (handleRootRequest env true) rl) := by
      unfold validateRequest
      simp only [hparse, hk, hintF]
      rcases hkey with hg | hg
      · simp only [hg, hroot, hget]
        rfl
      · simp only [hg, hroot, hget]
        rfl
    unfold handleRequest
    rw [if_neg hne, hv]
    rfl
  · intro cfgKey hk hintF hkey hapi
    have hv : validateRequest req env rl now
        = some (.invalid (createErrorResponse "API key required. Access denied." 401) rl) := by
      unfold validateRequest
      simp only [hparse, hk, hintF]
      rcases hkey with hg | hg
      · simp only [hg, hapi, hget]
        rfl
      · simp only [hg, hapi, hget]
        rfl
    unfold handleRequest
    rw [if_neg hne, hv]

/-- Witness for C6 (amended): without a configured key, GET on pathname "/"
yields the documentation page (and records one rate-limiter timestamp). -/
theorem docs_pages_access_witness :
    (parseUrl "http://localhost/" = some ⟨"/", ""⟩
     ∧ authPasses ⟨"GET", "http://localhost/", false, none⟩ ⟨none⟩ ⟨"/", ""⟩ = true
     ∧ isMaliciousRequest (some "http://localhost/") = false
     ∧ (isRateLimited "unknown" 0 ⟨[], 0⟩).1 = false)
    ∧ handleRequest ⟨"GET", "http://localhost/", false, none⟩ ⟨none⟩ ⟨[], 0⟩ 0 (Except.error "")
        = some (⟨200, RBody.docsHtml⟩, ⟨[("unknown", [0])], 0⟩) := by
  refine ⟨⟨by decide, by decide, by decide, by decide⟩, ?_⟩
  have h := (docs_pages_access ⟨"GET", "http://localhost/", false, none⟩ ⟨none⟩ ⟨[], 0⟩ 0
      ⟨"/", ""⟩ (Except.error "") (by decide) (Or.inl rfl) rfl).1 (by decide) (by decide) (by decide)
  exact h.trans (by decide)
